import Mathlib

/-!
Shallow embedding of the training-lifecycle core of the eduInsight_ai
model-training microservice, together with theorems settling claims about
checkpoint retention, training failure semantics, data validation, model
loading, early stopping, learning-rate warmup, ensemble weights and
pruning.  Every definition is translated from the corresponding Python
source in `model_service/utils`.  The file is organised as definitions
first, then lemmas and claim theorems.
-/

namespace EduInsight

/-- Python exceptions that the embedded code can raise.  `keyError` models a
dict access `d[k]` on a missing key, `nameError` an unbound local/global
name, `attributeError` a missing object attribute, `fileNotFoundError` the
builtin raised by `ModelManager.load_model`, `zeroDivisionError` a division
by zero.  `modelNotFoundError` and `dataValidationError` are the exception
classes named by the specification; no class of either name exists anywhere
in the repository, the constructors exist only so that claims mentioning
them can be stated. -/
inductive PyError where
  | keyError (key : String)
  | nameError (name : String)
  | attributeError (attr : String)
  | fileNotFoundError (msg : String)
  | zeroDivisionError
  | modelNotFoundError (msg : String)
  | dataValidationError (msg : String)
  | externalError (msg : String)
deriving DecidableEq, Repr

/-- The `str(e)` rendering used when an exception message is stored in a job
record (`'error': str(e)`). -/
def pyErrStr : PyError → String
  | .keyError k => "KeyError: " ++ k
  | .nameError n => "name " ++ n ++ " is not defined"
  | .attributeError a => "TrainingManager object has no attribute " ++ a
  | .fileNotFoundError m => m
  | .zeroDivisionError => "division by zero"
  | .modelNotFoundError m => m
  | .dataValidationError m => m
  | .externalError m => m

/-- True iff `e` raised a `ModelNotFoundError` (the exception class the spec names
for a missing checkpoint). -/
def raisesModelNotFound {α : Type} : Except PyError α → Bool
  | .error (.modelNotFoundError _) => true
  | _ => false

/-- True iff `e` raised a `DataValidationError` (the exception class the spec names
for malformed training data). -/
def raisesDataValidation {α : Type} : Except PyError α → Bool
  | .error (.dataValidationError _) => true
  | _ => false

/-- True iff `e` raised a Python `KeyError` (a dict access on a missing key). -/
def raisesKeyError {α : Type} : Except PyError α → Bool
  | .error (.keyError _) => true
  | _ => false

/-! ### Checkpoint Store: `model_service/utils/model_manager.py`

A `(model_type, user_id)` namespace on disk is a set of version
directories, represented as a `List String` of directory names (the code
only ever sorts the names, so list order is irrelevant; theorems are stated
up to permutation where the order could matter). -/

namespace ModelManager

/-- Descending sort by directory name:
`sorted([...], key=lambda x: x.name, reverse=True)`. -/
def sortedDesc (l : List String) : List String :=
  l.insertionSort (fun a b => b ≤ a)

/-- Embeds `ModelManager._cleanup_old_versions`: list the version directories,
sort them descending by name, and if there are more than `max_versions`
delete every directory after the first `max_versions` (so the directories
that remain are the first `max_versions` of the descending sort). -/
def cleanupOldVersions (maxVersions : ℕ) (dirs : List String) : List String :=
  if maxVersions < dirs.length then (sortedDesc dirs).take maxVersions else dirs

/-- Embeds `ModelManager.save_model` restricted to its effect on the version
directories of one `(model_type, user_id)` namespace: create the directory
for the new `version_id`, then run `_cleanup_old_versions`. -/
def saveModelDirs (maxVersions : ℕ) (dirs : List String) (versionId : String) : List String :=
  cleanupOldVersions maxVersions (versionId :: dirs)

/-- The version directories that remain after saving, in order, each of the
version ids in `vs`, starting from an empty namespace. -/
def runSaves (maxVersions : ℕ) (vs : List String) : List String :=
  vs.foldl (saveModelDirs maxVersions) []

/-- Embeds `ModelManager._get_version_path` for one `(model_type, user_id)`
namespace.  `dirs = none` models a namespace directory that does not exist.
With an explicit `version_id` the version directory is returned only if it
exists; with `version_id = None` the lexically greatest (latest) version
directory is returned, or `None` when there is none. -/
def getVersionPath (dirs : Option (List String)) (versionId : Option String) : Option String :=
  match dirs with
  | none => none
  | some ds =>
    match versionId with
    | some v => if v ∈ ds then some v else none
    | none => (sortedDesc ds).head?

/-- Embeds `ModelManager.load_model` up to the point where the checkpoint files
are read: if `_get_version_path` returns `None` the builtin
`FileNotFoundError` is raised (and re-raised as-is by the
`except` block); otherwise loading proceeds from the returned version
directory, which the embedding returns as the success value. -/
def loadModel (dirs : Option (List String)) (versionId : Option String) :
    Except PyError String :=
  match getVersionPath dirs versionId with
  | none => .error (.fileNotFoundError "model not found")
  | some p => .ok p

instance : IsTrans String (fun a b => b ≤ a) :=
  ⟨fun _ _ _ hab hbc => le_trans hbc hab⟩

instance : IsTotal String (fun a b => b ≤ a) :=
  ⟨fun a b => le_total b a⟩

instance : IsAntisymm String (fun a b => b ≤ a) :=
  ⟨fun _ _ h1 h2 => le_antisymm h2 h1⟩

end ModelManager

/-! ### Stopping Policy: `model_service/utils/early_stopping.py` -/

namespace EarlyStopping

/-- Embeds `EarlyStoppingMode`: whether a smaller or a larger monitored score is
better. -/
inductive ESMode where
  | min
  | max
deriving DecidableEq, Repr

/-- The configuration read in `EarlyStopping.__init__` (scores are modelled
as exact rationals). -/
structure ESConfig where
  patience : ℕ
  minDelta : ℚ
  baseline : Option ℚ
  restoreBest : Bool
  mode : ESMode
deriving DecidableEq, Repr

/-- The mutable state of an `EarlyStopping` instance.  `σ` is the type of
the model state snapshots passed by the caller.  `bestState = none` models
the `best_state` attribute not having been created yet. -/
structure ESState (σ : Type) where
  counter : ℕ
  bestScore : Option ℚ
  bestEpoch : ℕ
  earlyStop : Bool
  history : List (ℕ × ℚ)
  bestState : Option σ

/-- The freshly-initialised state set up in `__init__`. -/
def initES {σ : Type} : ESState σ :=
  ⟨0, none, 0, false, [], none⟩

/-- Embeds `EarlyStopping._is_improved`. -/
def isImproved (cfg : ESConfig) (best score : ℚ) : Bool :=
  match cfg.mode with
  | .min => decide (score < best - cfg.minDelta)
  | .max => decide (score > best + cfg.minDelta)

/-- Embeds `EarlyStopping._update_best`. -/
def updateBest {σ : Type} (cfg : ESConfig) (st : ESState σ) (score : ℚ) (epoch : ℕ)
    (ms : σ) : ESState σ :=
  { st with
    bestScore := some score
    bestEpoch := epoch
    bestState := if cfg.restoreBest then some ms else st.bestState }

/-- The baseline guard at the top of `EarlyStopping.__call__`: in MIN mode
a score above the baseline (in MAX mode a score below it) makes the call
return `False` immediately. -/
def baselineBlocked (cfg : ESConfig) (score : ℚ) : Bool :=
  match cfg.baseline with
  | none => false
  | some b =>
    match cfg.mode with
    | .min => decide (score > b)
    | .max => decide (score < b)

/-- Embeds `EarlyStopping.should_stop_on_baseline`, the separate baseline check
exposed to callers. -/
def shouldStopOnBaseline (cfg : ESConfig) (score : ℚ) : Bool :=
  match cfg.baseline with
  | none => false
  | some b =>
    match cfg.mode with
    | .min => decide (score > b)
    | .max => decide (score < b)

/-- Embeds `EarlyStopping.__call__`: append to history; return `False` early when
the baseline guard triggers; on the first observed score record it as best;
otherwise update best / the patience counter and stop once the counter
reaches `patience` (appending to the history leaves `best_score` untouched,
so the first-call test reads `st.bestScore`).  Returns the new state and
the `should_stop` result. -/
def esCall {σ : Type} (cfg : ESConfig) (st : ESState σ) (epoch : ℕ) (score : ℚ)
    (ms : σ) : ESState σ × Bool :=
  let st1 := { st with history := st.history ++ [(epoch, score)] }
  if baselineBlocked cfg score then (st1, false)
  else
    match st.bestScore with
    | none => (updateBest cfg st1 score epoch ms, false)
    | some best =>
      let st2 :=
        if isImproved cfg best score then
          { updateBest cfg st1 score epoch ms with counter := 0 }
        else { st1 with counter := st.counter + 1 }
      if cfg.patience ≤ st2.counter then ({ st2 with earlyStop := true }, true)
      else (st2, false)

/-- Feed the scores of consecutive epochs `e0, e0+1, ...` to the policy
(model-state snapshots are irrelevant to the claims and passed as `()`). -/
def runScores (cfg : ESConfig) : ESState Unit → ℕ → List ℚ → ESState Unit
  | st, _, [] => st
  | st, e0, s :: rest => runScores cfg (esCall cfg st e0 s ()).1 (e0 + 1) rest

end EarlyStopping

/-! ### Schedule Policy: `model_service/utils/lr_scheduler.py`

`get_lr` of each scheduler is a pure function of `last_epoch` and the
constructor parameters (one parameter group, so one base rate).  Rates are
modelled as exact rationals; the cosine strategy involves `math.cos` and is
not needed by any claim, so the inner scheduler of the warmup wrapper is
taken as an arbitrary rate function `ℕ → ℚ`, instantiable with any of the
rational strategies below. -/

namespace LRScheduler

/-- Embeds `StepLRScheduler.get_lr`: `base * gamma ** (last_epoch // step_size)`. -/
def stepGetLr (stepSize : ℕ) (gamma baseLr : ℚ) (lastEpoch : ℕ) : ℚ :=
  baseLr * gamma ^ (lastEpoch / stepSize)

/-- Embeds `ExponentialLRScheduler.get_lr`: `base * gamma ** last_epoch`. -/
def expGetLr (gamma baseLr : ℚ) (lastEpoch : ℕ) : ℚ :=
  baseLr * gamma ^ lastEpoch

/-- Embeds `LinearLRScheduler.get_lr`: `base * (1 - last_epoch / total_epochs)`. -/
def linearGetLr (totalEpochs : ℕ) (baseLr : ℚ) (lastEpoch : ℕ) : ℚ :=
  baseLr * (1 - (lastEpoch : ℚ) / (totalEpochs : ℚ))

/-- Embeds `WarmupLRScheduler.get_lr`: during warmup return
`base * (last_epoch + 1) / warmup_epochs`; afterwards set the inner
scheduler's `last_epoch` to `last_epoch - warmup_epochs` in place and
return its `get_lr` (`innerLr` is the inner scheduler's rate as a function
of that re-based epoch counter). -/
def warmupGetLr (warmupEpochs : ℕ) (baseLr : ℚ) (innerLr : ℕ → ℚ) (lastEpoch : ℕ) : ℚ :=
  if lastEpoch < warmupEpochs then
    baseLr * ((lastEpoch : ℚ) + 1) / (warmupEpochs : ℚ)
  else innerLr (lastEpoch - warmupEpochs)

end LRScheduler

/-! ### Ensemble Engine: `model_service/utils/model_ensemble.py` -/

namespace ModelEnsemble

/-- The weight update in `ModelEnsemble.add_model`: on the very first model
the stored weight list becomes `[1.0]` (the `weight` argument is ignored);
afterwards the weight is appended and the whole list divided by its sum
(Python raises `ZeroDivisionError` when the sum is zero; before the raise
the un-normalized appended list has already been stored). -/
def addModelWeights : Option (List ℚ) → ℚ → Except PyError (List ℚ)
  | none, _ => .ok [1]
  | some ws, w =>
    let ws2 := ws ++ [w]
    if ws2.sum = 0 then .error .zeroDivisionError
    else .ok (ws2.map (fun x => x / ws2.sum))

/-- The stored weight list after a sequence of successful `add_model`
calls starting from the given state (`none` = no model added yet); the
first raised exception aborts the run. -/
def runAddModels : Option (List ℚ) → List ℚ → Except PyError (Option (List ℚ))
  | st, [] => .ok st
  | st, w :: ws =>
    match addModelWeights st w with
    | .error e => .error e
    | .ok l => runAddModels (some l) ws

end ModelEnsemble

/-! ### Compression Engine (pruning): `model_service/utils/model_compressor.py`

A model is a list of layers; each layer carries a flattened weight tensor
and a bias tensor, and is prunable iff it is a `nn.Linear`/`nn.Conv2d`. -/

namespace ModelCompressor

/-- One sublayer of a model: `prunable` marks `nn.Linear`/`nn.Conv2d`
modules, `weight`/`bias` are the flattened parameter tensors. -/
structure PruneLayer where
  prunable : Bool
  weight : List ℚ
  bias : List ℚ
deriving DecidableEq, Repr

/-- Computes `p.numel()` summed over a layer's parameters. -/
def layerNumel (l : PruneLayer) : ℕ :=
  l.weight.length + l.bias.length

/-- Computes `sum(p.numel() for p in model.parameters())`. -/
def modelParams (m : List PruneLayer) : ℕ :=
  (m.map layerNumel).sum

/-- Order on `(|value|, index)` pairs used to pick the smallest-magnitude
entries first (ties resolved by index). -/
def pruneRank (a b : ℚ × ℕ) : Prop :=
  a.1 < b.1 ∨ (a.1 = b.1 ∧ a.2 ≤ b.2)

instance : DecidableRel pruneRank := fun a b => by
  unfold pruneRank
  infer_instance

/-- Embeds `prune.l1_unstructured` followed by `prune.remove` on one weight
tensor: zero out the `round(amount * numel)` smallest-magnitude entries and
bake the mask in; the tensor keeps its size. -/
def pruneWeights (amount : ℚ) (w : List ℚ) : List ℚ :=
  let n := w.length
  let k := min (round (amount * (n : ℚ))).toNat n
  let ranked := List.insertionSort pruneRank ((w.map (fun x => |x|)).zip (List.range n))
  let toZero := (ranked.take k).map Prod.snd
  (w.zip (List.range n)).map (fun p => if p.2 ∈ toZero then 0 else p.1)

/-- The per-layer step of `_prune_model`: only linear/convolutional layers
are pruned, and only their `weight` tensor (`name='weight'`). -/
def pruneLayer (amount : ℚ) (l : PruneLayer) : PruneLayer :=
  if l.prunable then { l with weight := pruneWeights amount l.weight } else l

/-- The `info` dict assembled by `_prune_model` (the fields the claims are
about).  `compression_ratio = original_params / pruned_params`; `none`
models the `ZeroDivisionError` a parameterless model would raise. -/
structure PruneInfo where
  amount : ℚ
  originalParams : ℕ
  prunedParams : ℕ
  compressionRatio : Option ℚ
deriving DecidableEq, Repr

/-- Embeds `ModelCompressor._prune_model`: record `original_params`, prune every
prunable layer in place, recount the parameters, and report the ratio. -/
def pruneModel (m : List PruneLayer) (amount : ℚ) : List PruneLayer × PruneInfo :=
  let original := modelParams m
  let m2 := m.map (pruneLayer amount)
  let pruned := modelParams m2
  (m2,
    { amount := amount
      originalParams := original
      prunedParams := pruned
      compressionRatio :=
        if pruned = 0 then none else some ((original : ℚ) / (pruned : ℚ)) })

end ModelCompressor

/-! ### Training Orchestrator: `model_service/utils/train_manager.py`

Raw training data is a Python dict; each required key is modelled as an
`Option` field (`none` = key absent), and `d[k]` as `dictGet`, which raises
`KeyError` on a missing key.  The external embedding collaborator
(`llm_client.embed`) is a parameter returning `Except PyError`. -/

namespace TrainManager

/-- Models `d[k]` on the embedded dict: the value if present, `KeyError k`
otherwise. -/
def dictGet {α : Type} (v : Option α) (key : String) : Except PyError α :=
  match v with
  | some a => .ok a
  | none => .error (.keyError key)

/-- The `labels` sub-dict of student training data. -/
structure StudentLabelsRaw where
  weaknesses : Option (List ℚ)
  interests : Option (List ℚ)
  path : Option (List ℚ)
deriving DecidableEq, Repr

/-- Raw student training data (`text` / `sequence` / `labels`). -/
structure StudentRawData where
  text : Option String
  sequence : Option (List ℚ)
  labels : Option StudentLabelsRaw
deriving DecidableEq, Repr

/-- The tensors produced by `_preprocess_student_data`. -/
structure ProcessedStudent where
  text : List ℚ
  sequence : List ℚ
  weaknesses : List ℚ
  interests : List ℚ
  path : List ℚ
deriving DecidableEq, Repr

/-- Embeds `TrainingManager._preprocess_student_data`: embed `data['text']`,
tensorise `data['sequence']` and the three label arrays under
`data['labels']`, in that access order; any exception is logged and
re-raised as-is. -/
def preprocessStudentData (embed : String → Except PyError (List ℚ))
    (d : StudentRawData) : Except PyError ProcessedStudent := do
  let t ← dictGet d.text "text"
  let emb ← embed t
  let seq ← dictGet d.sequence "sequence"
  let labs ← dictGet d.labels "labels"
  let w ← dictGet labs.weaknesses "weaknesses"
  let its ← dictGet labs.interests "interests"
  let p ← dictGet labs.path "path"
  return ⟨emb, seq, w, its, p⟩

/-- The `content` sub-dict of teacher training data. -/
structure TeacherContentRaw where
  plans : Option (List String)
  recordings : Option (List String)
  feedback : Option (List String)
deriving DecidableEq, Repr

/-- One entry of `data['student_data']`; the four rates are read with
`.get(key, 0)`, which never raises. -/
structure TeacherStudentStat where
  averageScore : Option ℚ
  attendanceRate : Option ℚ
  participationRate : Option ℚ
  homeworkCompletionRate : Option ℚ
deriving DecidableEq, Repr

/-- The `labels` sub-dict of teacher training data (`coverage` is a dict
read with `.get(subject, 0)`). -/
structure TeacherLabelsRaw where
  coverage : Option (List (String × ℚ))
  studentLayers : Option (List ℚ)
deriving DecidableEq, Repr

/-- Raw teacher training data (`content` / `student_data` / `labels`). -/
structure TeacherRawData where
  content : Option TeacherContentRaw
  studentData : Option (List TeacherStudentStat)
  labels : Option TeacherLabelsRaw
deriving DecidableEq, Repr

/-- The tensors produced by `_preprocess_teacher_data`. -/
structure ProcessedTeacher where
  content : List ℚ
  studentData : List (List ℚ)
  coverage : List ℚ
  studentLayers : List ℚ
deriving DecidableEq, Repr

/-- Models `student.get(key, 0)`. -/
def optD (v : Option ℚ) : ℚ :=
  v.getD 0

/-- Models `data['labels']['coverage'].get(subject, 0)`. -/
def lookupDefault (l : List (String × ℚ)) (k : String) : ℚ :=
  ((l.find? (fun p => p.1 == k)).map Prod.snd).getD 0

/-- Embeds `TrainingManager._preprocess_teacher_data`: join and embed the three
`content` arrays, extract the four per-student rates, build the coverage
vector over the configured subjects and read `student_layers`, in that
access order; any exception is logged and re-raised as-is. -/
def preprocessTeacherData (embed : String → Except PyError (List ℚ))
    (subjects : List String) (d : TeacherRawData) : Except PyError ProcessedTeacher := do
  let content ← dictGet d.content "content"
  let plans ← dictGet content.plans "plans"
  let recs ← dictGet content.recordings "recordings"
  let fb ← dictGet content.feedback "feedback"
  let contentText := String.intercalate "\n" (plans ++ recs ++ fb)
  let emb ← embed contentText
  let students ← dictGet d.studentData "student_data"
  let feats := students.map (fun s =>
    [optD s.averageScore, optD s.attendanceRate, optD s.participationRate,
      optD s.homeworkCompletionRate])
  let labs ← dictGet d.labels "labels"
  let cov ← dictGet labs.coverage "coverage"
  let covVec := subjects.map (fun subj => lookupDefault cov subj)
  let layers ← dictGet labs.studentLayers "student_layers"
  return ⟨emb, feats, covVec, layers⟩

/-- The slice of `self.training_status[user_id]` the failure-semantics
claim is about. -/
structure JobRecord where
  status : String
  error : Option String
deriving DecidableEq, Repr

/-- The record created at the top of `train_student_model` /
`train_teacher_model`: `{'status': 'training', ...}`. -/
def initJob : JobRecord :=
  ⟨"training", none⟩

/-- Embeds `TrainingManager._prepare_data_loader`, which evaluates
`isinstance(self.model, StudentModel)`, but no code path ever assigns
`self.model` on a `TrainingManager`, so the attribute access raises
`AttributeError` before anything else; the method logs it and re-raises.
Consequently the epoch loop of both training methods is unreachable. -/
def prepareDataLoader : Except PyError Unit :=
  .error (.attributeError "model")

/-- The `except` block of `train_student_model`.  Its first statement,
`MetricsCollector.update_training_metrics(..., progress=progress)`, reads
the local variable `progress`, which is first assigned only inside the
epoch loop; if the exception occurred before that assignment the read
itself raises `NameError`, the status update below it never runs, and the
`NameError` (not the original exception) propagates. -/
def studentExceptBlock (job : JobRecord) (progressVar : Option ℚ) (e : PyError) :
    JobRecord × PyError :=
  match progressVar with
  | none => (job, .nameError "progress")
  | some _ => ({ job with status := "failed", error := some (pyErrStr e) }, e)

/-- The `except` block of `train_teacher_model`: mark the job failed with
the stringified exception and re-raise the same exception. -/
def teacherExceptBlock (job : JobRecord) (e : PyError) : JobRecord × PyError :=
  ({ job with status := "failed", error := some (pyErrStr e) }, e)

/-- Embeds `TrainingManager.train_student_model` for one student id: create the
job record, preprocess, build the data loader (which always raises, so the
epoch loop below is dead code and the local `progress` is never assigned),
and on any exception run the `except` block.  Returns the final job record
and the outcome seen by the caller. -/
def trainStudentModel (embed : String → Except PyError (List ℚ))
    (d : StudentRawData) : JobRecord × Except PyError Unit :=
  let job := initJob
  let body : Except PyError Unit := do
    let _ ← preprocessStudentData embed d
    let _ ← prepareDataLoader
    return ()
  match body with
  | .ok _ => ({ job with status := "completed" }, .ok ())
  | .error e =>
    let r := studentExceptBlock job none e
    (r.1, .error r.2)

/-- Embeds `TrainingManager.train_teacher_model` for one teacher id, mirroring
`trainStudentModel` but with the teacher preprocessing and the teacher
`except` block. -/
def trainTeacherModel (embed : String → Except PyError (List ℚ))
    (subjects : List String) (d : TeacherRawData) : JobRecord × Except PyError Unit :=
  let job := initJob
  let body : Except PyError Unit := do
    let _ ← preprocessTeacherData embed subjects d
    let _ ← prepareDataLoader
    return ()
  match body with
  | .ok _ => ({ job with status := "completed" }, .ok ())
  | .error e =>
    let r := teacherExceptBlock job e
    (r.1, .error r.2)

/-- A required student field is absent from the raw training data. -/
def studentMissingField (d : StudentRawData) : Prop :=
  d.text = none ∨ d.sequence = none ∨ d.labels = none ∨
    ∃ labs, d.labels = some labs ∧
      (labs.weaknesses = none ∨ labs.interests = none ∨ labs.path = none)

/-- A required teacher field is absent from the raw training data. -/
def teacherMissingField (d : TeacherRawData) : Prop :=
  d.content = none ∨
    (∃ c, d.content = some c ∧
      (c.plans = none ∨ c.recordings = none ∨ c.feedback = none)) ∨
    d.studentData = none ∨ d.labels = none ∨
    ∃ labs, d.labels = some labs ∧
      (labs.coverage = none ∨ labs.studentLayers = none)

/-- An embedding collaborator that always succeeds (used as fixture). -/
def embedOk : String → Except PyError (List ℚ) :=
  fun _ => .ok [0]

/-- Student training data whose `text` key is missing. -/
def studentDataMissingText : StudentRawData :=
  ⟨none, some [0], some ⟨some [0], some [0], some [0]⟩⟩

/-- Complete student training data. -/
def studentDataFull : StudentRawData :=
  ⟨some "notes", some [0], some ⟨some [0], some [0], some [0]⟩⟩

/-- Teacher training data whose `content` key is missing. -/
def teacherDataMissingContent : TeacherRawData :=
  ⟨none, some [], some ⟨some [], some []⟩⟩

end TrainManager

end EduInsight

/-! ## Lemmas and claim theorems -/

namespace EduInsight

theorem except_bind_ok {α β : Type} (a : α) (f : α → Except PyError β) :
    (Except.ok a >>= f) = f a :=
  rfl

theorem except_bind_error {α β : Type} (e : PyError) (f : α → Except PyError β) :
    ((Except.error e : Except PyError α) >>= f) = .error e :=
  rfl

theorem except_map_error {α β : Type} (e : PyError) (f : α → β) :
    (f <$> (Except.error e : Except PyError α)) = .error e :=
  rfl

namespace ModelManager

theorem sortedDesc_perm (l : List String) : List.Perm (sortedDesc l) l :=
  List.perm_insertionSort _ l

theorem sortedDesc_sorted (l : List String) :
    List.Sorted (fun a b => b ≤ a) (sortedDesc l) :=
  List.sorted_insertionSort _ l

theorem sortedDesc_congr {l₁ l₂ : List String} (h : List.Perm l₁ l₂) :
    sortedDesc l₁ = sortedDesc l₂ :=
  List.eq_of_perm_of_sorted ((sortedDesc_perm l₁).trans (h.trans (sortedDesc_perm l₂).symm))
    (sortedDesc_sorted l₁) (sortedDesc_sorted l₂)

theorem sortedDesc_take_sorted (l : List String) (k : ℕ) :
    List.Sorted (fun a b => b ≤ a) ((sortedDesc l).take k) :=
  (sortedDesc_sorted l).sublist (List.take_sublist k _)

theorem sortedDesc_of_sorted {l : List String}
    (h : List.Sorted (fun a b => b ≤ a) l) : sortedDesc l = l :=
  List.Sorted.insertionSort_eq h

/-- Taking the `k` greatest of `orderedInsert v (take k s)` is the same as
taking the `k` greatest of `orderedInsert v s`: the elements dropped by the
inner `take` sit behind the first `k` positions in either case. -/
theorem take_orderedInsert_take (r : String → String → Prop) [DecidableRel r] (v : String) :
    ∀ (s : List String) (k : ℕ),
      (List.orderedInsert r v (s.take k)).take k = (List.orderedInsert r v s).take k := by
  intro s
  induction s with
  | nil => intro k; simp
  | cons x xs ih =>
    intro k
    cases k with
    | zero => simp
    | succ m =>
      rw [List.take_succ_cons]
      by_cases h : r v x
      · simp only [List.orderedInsert, if_pos h, List.take_succ_cons]
        cases m with
        | zero => simp
        | succ n =>
          rw [List.take_succ_cons, List.take_succ_cons, List.take_take]
          rw [min_eq_left (Nat.le_succ n)]
      · simp only [List.orderedInsert, if_neg h, List.take_succ_cons]
        rw [ih m]

/-- One save step preserves the retention invariant: if the directories on
disk are (a permutation of) the `k` greatest version ids saved so far, the
same holds after saving one more version id. -/
theorem saveModelDirs_step (k : ℕ) (seen st : List String) (v : String)
    (h : List.Perm st ((sortedDesc seen).take k)) :
    List.Perm (saveModelDirs k st v) ((sortedDesc (seen ++ [v])).take k) := by
  have hsort : sortedDesc (seen ++ [v]) = sortedDesc (v :: seen) :=
    sortedDesc_congr (List.perm_append_singleton v seen)
  rw [hsort]
  unfold saveModelDirs cleanupOldVersions
  by_cases hlen : k < (v :: st).length
  · rw [if_pos hlen]
    have hst : sortedDesc st = (sortedDesc seen).take k := by
      have h1 : sortedDesc st = sortedDesc ((sortedDesc seen).take k) := sortedDesc_congr h
      rw [h1, sortedDesc_of_sorted (sortedDesc_take_sorted seen k)]
    have h2 : sortedDesc (v :: st) = List.orderedInsert (fun a b => b ≤ a) v (sortedDesc st) := rfl
    have h3 : sortedDesc (v :: seen) =
        List.orderedInsert (fun a b => b ≤ a) v (sortedDesc seen) := rfl
    rw [h2, h3, hst, take_orderedInsert_take]
  · rw [if_neg hlen]
    -- fewer than k directories: nothing is deleted and nothing was ever deleted
    have hlen' : st.length + 1 ≤ k := by
      simpa using Nat.le_of_not_lt hlen
    have hseen : seen.length < k := by
      have hl := h.length_eq
      rw [List.length_take, ((sortedDesc_perm seen).length_eq :
        (sortedDesc seen).length = seen.length)] at hl
      rcases Nat.le_total k seen.length with hc | hc
      · rw [min_eq_left hc] at hl; omega
      · rw [min_eq_right hc] at hl; omega
    have htake : (sortedDesc seen).take k = sortedDesc seen := by
      apply List.take_of_length_le
      rw [(sortedDesc_perm seen).length_eq]
      omega
    have htake' : (sortedDesc (v :: seen)).take k = sortedDesc (v :: seen) := by
      apply List.take_of_length_le
      rw [(sortedDesc_perm (v :: seen)).length_eq]
      simp only [List.length_cons]
      omega
    rw [htake']
    have hstseen : List.Perm st seen := by
      rw [htake] at h
      exact h.trans (sortedDesc_perm seen)
    exact (hstseen.cons v).trans (sortedDesc_perm (v :: seen)).symm

/-- After any sequence of saves the surviving version directories are
exactly (a permutation of) the `k` lexicographically greatest version ids
saved so far. -/
theorem runSaves_perm (k : ℕ) (vs : List String) :
    List.Perm (runSaves k vs) ((sortedDesc vs).take k) := by
  induction vs using List.reverseRecOn with
  | nil => simp [runSaves, sortedDesc]
  | append_singleton l v ih =>
    have hfold : runSaves k (l ++ [v]) = saveModelDirs k (runSaves k l) v := by
      simp [runSaves, List.foldl_append]
    rw [hfold]
    exact saveModelDirs_step k l (runSaves k l) v ih

end ModelManager

/-- C1.  For every sequence of `save_model` calls for a fixed
`(model_type, owner_id)` with retention limit `max_versions = k`, assuming
the saves produce pairwise distinct version ids, after each save (i.e. for
every prefix of the sequence) at most `k` checkpoint version directories
remain under that namespace, and the retained directories are exactly the
`k` lexicographically greatest version ids saved so far (the first `k` of
the descending sort). -/
theorem checkpoint_retention_invariant (k : ℕ) (vs : List String)
    (hdistinct : vs.Nodup) (i : ℕ) :
    (ModelManager.runSaves k (vs.take i)).length ≤ k ∧
      List.Perm (ModelManager.runSaves k (vs.take i))
        ((ModelManager.sortedDesc (vs.take i)).take k) := by
  refine ⟨?_, ModelManager.runSaves_perm k (vs.take i)⟩
  have h := (ModelManager.runSaves_perm k (vs.take i)).length_eq
  rw [List.length_take] at h
  omega

/-- Witness for C1: three saves with `max_versions = 2` keep exactly the
two lexicographically greatest version ids. -/
theorem checkpoint_retention_invariant_witness :
    (["20240101_090000", "20240103_090000", "20240102_090000"] : List String).Nodup ∧
      ((ModelManager.runSaves 2
          (["20240101_090000", "20240103_090000", "20240102_090000"].take 3)).length ≤ 2 ∧
        List.Perm (ModelManager.runSaves 2
            (["20240101_090000", "20240103_090000", "20240102_090000"].take 3))
          ((ModelManager.sortedDesc
              (["20240101_090000", "20240103_090000", "20240102_090000"].take 3)).take 2)) :=
  ⟨by decide, checkpoint_retention_invariant 2
    ["20240101_090000", "20240103_090000", "20240102_090000"] (by decide) 3⟩

/-- C4 counterexample.  Loading from a `(model_type, user_id)` namespace
that does not exist raises the builtin `FileNotFoundError`, not a
`ModelNotFoundError` (no exception class of that name exists anywhere in
the repository). -/
theorem load_model_missing_not_modelnotfound :
    ModelManager.loadModel none none = .error (.fileNotFoundError "model not found") ∧
      raisesModelNotFound (ModelManager.loadModel none none) = false :=
  ⟨rfl, rfl⟩

/-- C4 amended.  For every call to `ModelManager.load_model` where the
`(model_type, user_id)` namespace does not exist, or the explicitly
requested `version_id` under it does not exist, the call fails by raising
the builtin `FileNotFoundError` (re-raised as-is by the `except` block). -/
theorem load_model_missing_raises (dirs : Option (List String)) (versionId : Option String)
    (h : dirs = none ∨ ∃ ds v, dirs = some ds ∧ versionId = some v ∧ v ∉ ds) :
    ModelManager.loadModel dirs versionId = .error (.fileNotFoundError "model not found") := by
  rcases h with h | ⟨ds, v, hds, hv, hmem⟩
  · rw [h]; rfl
  · rw [hds, hv]
    simp only [ModelManager.loadModel, ModelManager.getVersionPath, if_neg hmem]

namespace EarlyStopping

/-- A score on the unfavorable side of the baseline: only the history is
extended and the call returns False. -/
theorem esCall_blocked {σ : Type} (cfg : ESConfig) (st : ESState σ) (epoch : ℕ) (score : ℚ)
    (ms : σ) (hblocked : baselineBlocked cfg score = true) :
    esCall cfg st epoch score ms =
      ({ st with history := st.history ++ [(epoch, score)] }, false) := by
  rw [esCall.eq_def, hblocked]
  simp

/-- First observed score: the best is recorded and the call returns False. -/
theorem esCall_first {σ : Type} (cfg : ESConfig) (st : ESState σ) (epoch : ℕ) (score : ℚ)
    (ms : σ) (hblocked : baselineBlocked cfg score = false) (hbs : st.bestScore = none) :
    esCall cfg st epoch score ms =
      (updateBest cfg { st with history := st.history ++ [(epoch, score)] } score epoch ms,
        false) := by
  rw [esCall.eq_def, hblocked, hbs]
  simp

/-- An improving score with positive patience: best updated, counter reset,
no stop. -/
theorem esCall_improve {σ : Type} (cfg : ESConfig) (st : ESState σ) (epoch : ℕ) (score : ℚ)
    (ms : σ) (best : ℚ) (hblocked : baselineBlocked cfg score = false)
    (hbs : st.bestScore = some best) (himp : isImproved cfg best score = true)
    (hp : 0 < cfg.patience) :
    esCall cfg st epoch score ms =
      ({ updateBest cfg { st with history := st.history ++ [(epoch, score)] } score epoch ms
          with counter := 0 }, false) := by
  rw [esCall.eq_def, hblocked, hbs]
  simp only [Bool.false_eq_true, if_false, himp, if_true]
  rw [if_neg (by simp; omega)]

/-- A non-improving score that exhausts the patience budget: counter
incremented and the stop flag raised. -/
theorem esCall_noimprove_stop {σ : Type} (cfg : ESConfig) (st : ESState σ) (epoch : ℕ)
    (score : ℚ) (ms : σ) (best : ℚ) (hblocked : baselineBlocked cfg score = false)
    (hbs : st.bestScore = some best) (hnoimp : isImproved cfg best score = false)
    (hstop : cfg.patience ≤ st.counter + 1) :
    esCall cfg st epoch score ms =
      ({ st with
          history := st.history ++ [(epoch, score)]
          counter := st.counter + 1
          earlyStop := true }, true) := by
  rw [esCall.eq_def, hblocked, hbs]
  simp only [Bool.false_eq_true, if_false, hnoimp]
  rw [if_pos (by simpa using hstop)]

/-- A non-improving score within the patience budget: counter incremented,
no stop. -/
theorem esCall_noimprove_continue {σ : Type} (cfg : ESConfig) (st : ESState σ) (epoch : ℕ)
    (score : ℚ) (ms : σ) (best : ℚ) (hblocked : baselineBlocked cfg score = false)
    (hbs : st.bestScore = some best) (hnoimp : isImproved cfg best score = false)
    (hstop : ¬cfg.patience ≤ st.counter + 1) :
    esCall cfg st epoch score ms =
      ({ st with
          history := st.history ++ [(epoch, score)]
          counter := st.counter + 1 }, false) := by
  rw [esCall.eq_def, hblocked, hbs]
  simp only [Bool.false_eq_true, if_false, hnoimp]
  rw [if_neg (by simpa using hstop)]

/-- Feeding a score that improves on the recorded best (or a first score),
with no baseline configured and positive patience, never stops; the run
over an improving chain keeps `early_stop` False. -/
theorem runScores_improving (cfg : ESConfig) (hb : cfg.baseline = none)
    (hp : 0 < cfg.patience) :
    ∀ (scores : List ℚ) (st : ESState Unit) (e0 : ℕ),
      st.earlyStop = false → st.counter = 0 →
      (∀ b s rest, st.bestScore = some b → scores = s :: rest → isImproved cfg b s = true) →
      List.Chain' (fun a b => isImproved cfg a b = true) scores →
      (runScores cfg st e0 scores).earlyStop = false := by
  intro scores
  induction scores with
  | nil => intro st e0 hES _ _ _; simpa [runScores] using hES
  | cons s rest ih =>
    intro st e0 hES hC hhead hchain
    have hblocked : baselineBlocked cfg s = false := by
      simp [baselineBlocked, hb]
    rw [runScores]
    cases hbs : st.bestScore with
    | none =>
      rw [esCall_first cfg st e0 s () hblocked hbs]
      apply ih _ (e0 + 1)
      · simpa [updateBest] using hES
      · simpa [updateBest] using hC
      · intro b s2 rest2 hb2 hrest2
        have hbval : b = s := by
          simp [updateBest] at hb2
          exact hb2.symm
        subst hbval
        rcases List.chain'_cons.mp (hrest2 ▸ hchain) with ⟨himp, _⟩
        exact himp
      · exact hchain.tail
    | some best =>
      have himp : isImproved cfg best s = true := hhead best s rest hbs rfl
      rw [esCall_improve cfg st e0 s () best hblocked hbs himp hp]
      apply ih _ (e0 + 1)
      · simpa [updateBest] using hES
      · rfl
      · intro b s2 rest2 hb2 hrest2
        have hbval : b = s := by
          simp [updateBest] at hb2
          exact hb2.symm
        subst hbval
        rcases List.chain'_cons.mp (hrest2 ▸ hchain) with ⟨himp2, _⟩
        exact himp2
      · exact hchain.tail

/-- Feeding a constant score to a policy that already recorded that score
as best (no baseline, non-negative `min_delta`): the counter increases by
one per call, the best epoch never moves, and `early_stop` is raised
exactly when the counter has reached `patience`. -/
theorem runScores_const (cfg : ESConfig) (hb : cfg.baseline = none)
    (hd : 0 ≤ cfg.minDelta) (c : ℚ) :
    ∀ (m : ℕ) (st : ESState Unit) (e0 : ℕ), st.bestScore = some c →
      ((runScores cfg st e0 (List.replicate m c)).earlyStop = true ↔
          (st.earlyStop = true ∨ (1 ≤ m ∧ cfg.patience ≤ st.counter + m))) ∧
        (runScores cfg st e0 (List.replicate m c)).bestEpoch = st.bestEpoch ∧
        (runScores cfg st e0 (List.replicate m c)).counter = st.counter + m ∧
        (runScores cfg st e0 (List.replicate m c)).bestScore = some c := by
  intro m
  induction m with
  | zero =>
    intro st e0 hbs
    simp [runScores, hbs]
  | succ m ih =>
    intro st e0 hbs
    rw [List.replicate_succ, runScores]
    have hblocked : baselineBlocked cfg c = false := by
      simp [baselineBlocked, hb]
    have hnoimp : isImproved cfg c c = false := by
      cases hm : cfg.mode <;> simp [isImproved, hm] <;> linarith
    by_cases hstop : cfg.patience ≤ st.counter + 1
    · rw [esCall_noimprove_stop cfg st e0 c () c hblocked hbs hnoimp hstop]
      have hih := ih
        { st with
          history := st.history ++ [(e0, c)]
          counter := st.counter + 1
          earlyStop := true } (e0 + 1) hbs
      rcases hih with ⟨h1, h2, h3, h4⟩
      refine ⟨?_, h2, ?_, h4⟩
      · rw [h1]
        show (true = true ∨ (1 ≤ m ∧ cfg.patience ≤ st.counter + 1 + m)) ↔
          (st.earlyStop = true ∨ (1 ≤ m + 1 ∧ cfg.patience ≤ st.counter + (m + 1)))
        constructor
        · intro _; exact Or.inr ⟨by omega, by omega⟩
        · intro _; exact Or.inl rfl
      · rw [h3]
        show st.counter + 1 + m = st.counter + (m + 1)
        omega
    · rw [esCall_noimprove_continue cfg st e0 c () c hblocked hbs hnoimp hstop]
      have hih := ih
        { st with
          history := st.history ++ [(e0, c)]
          counter := st.counter + 1 } (e0 + 1) hbs
      rcases hih with ⟨h1, h2, h3, h4⟩
      refine ⟨?_, h2, ?_, h4⟩
      · rw [h1]
        show (st.earlyStop = true ∨ (1 ≤ m ∧ cfg.patience ≤ st.counter + 1 + m)) ↔
          (st.earlyStop = true ∨ (1 ≤ m + 1 ∧ cfg.patience ≤ st.counter + (m + 1)))
        constructor
        · rintro (h | ⟨hm1, hm2⟩)
          · exact Or.inl h
          · exact Or.inr ⟨by omega, by omega⟩
        · rintro (h | ⟨hm1, hm2⟩)
          · exact Or.inl h
          · rcases Nat.eq_zero_or_pos m with hm0 | hm0
            · subst hm0; omega
            · exact Or.inr ⟨hm0, by omega⟩
      · rw [h3]
        show st.counter + 1 + m = st.counter + (m + 1)
        omega

end EarlyStopping

/-- C5.  With no baseline configured, positive patience and non-negative
`min_delta`: feeding a strictly improving score sequence (each score
improves on its predecessor in the sense of `_is_improved`, i.e. by more
than `min_delta` in the favorable direction) leaves `stopped_early` False
after every invocation; feeding a constant score sequence longer than
`patience` sets `stopped_early` True with `best_epoch` equal to the first
epoch of the sequence. -/
theorem early_stopping_policy (cfg : EarlyStopping.ESConfig)
    (hb : cfg.baseline = none) (hp : 0 < cfg.patience) (hd : 0 ≤ cfg.minDelta) :
    (∀ scores : List ℚ,
        List.Chain' (fun a b => EarlyStopping.isImproved cfg a b = true) scores →
        ∀ j : ℕ,
          (EarlyStopping.runScores cfg EarlyStopping.initES 0 (scores.take j)).earlyStop =
            false) ∧
      ∀ (c : ℚ) (n e0 : ℕ), cfg.patience < n →
        (EarlyStopping.runScores cfg EarlyStopping.initES e0
              (List.replicate n c)).earlyStop = true ∧
          (EarlyStopping.runScores cfg EarlyStopping.initES e0
              (List.replicate n c)).bestEpoch = e0 := by
  constructor
  · intro scores hchain j
    apply EarlyStopping.runScores_improving cfg hb hp (scores.take j)
        EarlyStopping.initES 0 rfl rfl
    · intro b s rest hbs
      simp [EarlyStopping.initES] at hbs
    · exact hchain.take j
  · intro c n e0 hn
    cases n with
    | zero => omega
    | succ m =>
      rw [List.replicate_succ, EarlyStopping.runScores]
      have hblocked : EarlyStopping.baselineBlocked cfg c = false := by
        simp [EarlyStopping.baselineBlocked, hb]
      have hstep : (EarlyStopping.esCall cfg EarlyStopping.initES e0 c ()).1 =
          { counter := 0, bestScore := some c, bestEpoch := e0, earlyStop := false,
            history := [(e0, c)],
            bestState := if cfg.restoreBest then some () else none } := by
        simp [EarlyStopping.esCall, hblocked, EarlyStopping.initES, EarlyStopping.updateBest]
      rw [hstep]
      rcases EarlyStopping.runScores_const cfg hb hd c m
          { counter := 0, bestScore := some c, bestEpoch := e0, earlyStop := false,
            history := [(e0, c)],
            bestState := if cfg.restoreBest then some () else none } (e0 + 1) rfl with
        ⟨h1, h2, _, _⟩

      refine ⟨h1.mpr (Or.inr ⟨by omega, by omega⟩), h2⟩

/-- Witness for C5 with `patience = 2`, `min_delta = 0`, MIN mode: the
improving sequence `[3, 2, 1]` never stops, while the constant sequence
`[5, 5, 5, 5]` (length 4 > patience) stops with best epoch 7 (the first
epoch fed). -/
theorem early_stopping_policy_witness :
    ((⟨2, 0, none, true, .min⟩ : EarlyStopping.ESConfig).baseline = none ∧
        0 < (⟨2, 0, none, true, .min⟩ : EarlyStopping.ESConfig).patience ∧
        (0 : ℚ) ≤ (⟨2, 0, none, true, .min⟩ : EarlyStopping.ESConfig).minDelta) ∧
      List.Chain'
        (fun a b =>
          EarlyStopping.isImproved (⟨2, 0, none, true, .min⟩ : EarlyStopping.ESConfig) a b =
            true) [3, 2, 1] ∧
      (EarlyStopping.runScores (⟨2, 0, none, true, .min⟩ : EarlyStopping.ESConfig)
          EarlyStopping.initES 0 (([3, 2, 1] : List ℚ).take 3)).earlyStop = false ∧
      (2 : ℕ) < 4 ∧
      (EarlyStopping.runScores (⟨2, 0, none, true, .min⟩ : EarlyStopping.ESConfig)
          EarlyStopping.initES 7 (List.replicate 4 (5 : ℚ))).earlyStop = true ∧
      (EarlyStopping.runScores (⟨2, 0, none, true, .min⟩ : EarlyStopping.ESConfig)
          EarlyStopping.initES 7 (List.replicate 4 (5 : ℚ))).bestEpoch = 7 := by
  have h := early_stopping_policy (⟨2, 0, none, true, .min⟩ : EarlyStopping.ESConfig)
    rfl (by decide) (by norm_num)
  have hchain : List.Chain'
      (fun a b =>
        EarlyStopping.isImproved (⟨2, 0, none, true, .min⟩ : EarlyStopping.ESConfig) a b =
          true) [3, 2, 1] := by
    refine List.chain'_cons.mpr ⟨?_, List.chain'_cons.mpr ⟨?_, List.chain'_singleton _⟩⟩ <;>
      norm_num [EarlyStopping.isImproved]
  refine ⟨⟨rfl, by decide, by norm_num⟩, hchain, h.1 [3, 2, 1] hchain 3, by decide, ?_, ?_⟩
  · exact (h.2 5 4 7 (by decide)).1
  · exact (h.2 5 4 7 (by decide)).2

/-- C6 counterexample.  MIN mode with baseline 1 and `min_delta = -1/10`:
after a first call with score 1 the recorded best is 1; a second call with
score 21/20 improves on the best in the sense of `_is_improved` but lies
above the baseline, and the baseline guard returns early, so neither
`best_score` nor `best_epoch` is updated — contradicting the claim that
such epochs still count as improving for best-state tracking. -/
theorem baseline_blocks_best_tracking :
    EarlyStopping.isImproved ⟨5, -(1/10), some 1, true, .min⟩ 1 (21/20) = true ∧
      EarlyStopping.baselineBlocked ⟨5, -(1/10), some 1, true, .min⟩ (21/20) = true ∧
      (EarlyStopping.esCall ⟨5, -(1/10), some 1, true, .min⟩
          (EarlyStopping.esCall ⟨5, -(1/10), some 1, true, .min⟩
            (EarlyStopping.initES : EarlyStopping.ESState Unit) 0 1 ()).1
          1 (21/20) ()).1.bestScore = some 1 ∧
      (EarlyStopping.esCall ⟨5, -(1/10), some 1, true, .min⟩
          (EarlyStopping.esCall ⟨5, -(1/10), some 1, true, .min⟩
            (EarlyStopping.initES : EarlyStopping.ESState Unit) 0 1 ()).1
          1 (21/20) ()).1.bestEpoch = 0 := by
  have himp : EarlyStopping.isImproved ⟨5, -(1/10), some 1, true, .min⟩ 1 (21/20) = true := by
    norm_num [EarlyStopping.isImproved]
  have hb1 : EarlyStopping.baselineBlocked ⟨5, -(1/10), some 1, true, .min⟩ 1 = false := by
    norm_num [EarlyStopping.baselineBlocked]
  have hb2 : EarlyStopping.baselineBlocked ⟨5, -(1/10), some 1, true, .min⟩ (21/20) = true := by
    norm_num [EarlyStopping.baselineBlocked]
  have hcall1 : (EarlyStopping.esCall ⟨5, -(1/10), some 1, true, .min⟩
      (EarlyStopping.initES : EarlyStopping.ESState Unit) 0 1 ()).1 =
      (⟨0, some 1, 0, false, [(0, 1)], some ()⟩ : EarlyStopping.ESState Unit) := by
    rw [EarlyStopping.esCall_first _ _ 0 1 () hb1 rfl]
    rfl
  refine ⟨himp, hb2, ?_, ?_⟩ <;>
    rw [hcall1, EarlyStopping.esCall_blocked _ _ 1 (21/20) () hb2]

/-- C6 amended.  Whenever the baseline guard triggers (MIN mode and score
above baseline, or MAX mode and score below it), `__call__` only appends to
the history and returns False: best-state tracking and the patience counter
are untouched even when the score improves on the current best, and the
call never signals stop; the baseline test is exposed separately as
`should_stop_on_baseline`. -/
theorem baseline_guard_semantics {σ : Type} (cfg : EarlyStopping.ESConfig)
    (st : EarlyStopping.ESState σ) (epoch : ℕ) (score : ℚ) (ms : σ)
    (hblocked : EarlyStopping.baselineBlocked cfg score = true) :
    EarlyStopping.esCall cfg st epoch score ms =
        ({ st with history := st.history ++ [(epoch, score)] }, false) ∧
      EarlyStopping.shouldStopOnBaseline cfg score = true := by
  constructor
  · exact EarlyStopping.esCall_blocked cfg st epoch score ms hblocked
  · exact hblocked

/-- Witness for C6 amended: MIN mode, baseline 1, score 2. -/
theorem baseline_guard_semantics_witness :
    EarlyStopping.baselineBlocked ⟨5, -(1/10), some 1, true, .min⟩ 2 = true ∧
      (EarlyStopping.esCall ⟨5, -(1/10), some 1, true, .min⟩
            (EarlyStopping.initES : EarlyStopping.ESState Unit) 3 2 () =
          ((⟨0, none, 0, false, [(3, 2)], none⟩ : EarlyStopping.ESState Unit), false) ∧
        EarlyStopping.shouldStopOnBaseline ⟨5, -(1/10), some 1, true, .min⟩ 2 = true) :=
  ⟨by norm_num [EarlyStopping.baselineBlocked],
    baseline_guard_semantics ⟨5, -(1/10), some 1, true, .min⟩
      (EarlyStopping.initES : EarlyStopping.ESState Unit) 3 2 ()
      (by norm_num [EarlyStopping.baselineBlocked])⟩

/-- C7 counterexample.  With `warmup_epochs = 5` and base rate 1 the rate
at epoch 0 is `1 * (0 + 1) / 5 = 1/5`, not 0: the ramp starts at
`base / warmup_epochs`. -/
theorem warmup_epoch_zero_not_zero :
    LRScheduler.warmupGetLr 5 1 (LRScheduler.expGetLr (95 / 100) 1) 0 = 1 / 5 ∧
      (1 / 5 : ℚ) ≠ 0 := by
  constructor
  · norm_num [LRScheduler.warmupGetLr]
  · norm_num

/-- C7 amended.  For epoch `e < W` the warmup scheduler returns the linear
ramp `base * (e + 1) / W` — so the rate at epoch 0 is `base / W`, not 0,
and the ramp reaches `base` already at epoch `W - 1`; for `e ≥ W` it
returns the inner strategy's rate re-indexed at `e - W`. -/
theorem warmup_lr_semantics (W : ℕ) (baseLr : ℚ) (innerLr : ℕ → ℚ) (e : ℕ)
    (hW : 0 < W) :
    (e < W →
        LRScheduler.warmupGetLr W baseLr innerLr e = baseLr * ((e : ℚ) + 1) / (W : ℚ)) ∧
      (W ≤ e → LRScheduler.warmupGetLr W baseLr innerLr e = innerLr (e - W)) ∧
      LRScheduler.warmupGetLr W baseLr innerLr 0 = baseLr / (W : ℚ) ∧
      LRScheduler.warmupGetLr W baseLr innerLr (W - 1) = baseLr := by
  refine ⟨fun h => by rw [LRScheduler.warmupGetLr, if_pos h],
    fun h => by rw [LRScheduler.warmupGetLr, if_neg (not_lt.mpr h)], ?_, ?_⟩
  · rw [LRScheduler.warmupGetLr, if_pos hW]
    norm_num
  · rw [LRScheduler.warmupGetLr, if_pos (by omega : W - 1 < W)]
    have hcast : ((W - 1 : ℕ) : ℚ) + 1 = (W : ℚ) := by
      rw [Nat.cast_sub hW]
      ring
    rw [hcast, mul_div_assoc, div_self (by exact_mod_cast Nat.pos_iff_ne_zero.mp hW), mul_one]

/-- Witness for C7 amended at `W = 5`, base rate 1, exponential inner
strategy, epoch 7. -/
theorem warmup_lr_semantics_witness :
    0 < 5 ∧
      ((7 < 5 →
          LRScheduler.warmupGetLr 5 1 (LRScheduler.expGetLr (95 / 100) 1) 7 =
            1 * ((7 : ℚ) + 1) / (5 : ℚ)) ∧
        (5 ≤ 7 →
          LRScheduler.warmupGetLr 5 1 (LRScheduler.expGetLr (95 / 100) 1) 7 =
            LRScheduler.expGetLr (95 / 100) 1 (7 - 5)) ∧
        LRScheduler.warmupGetLr 5 1 (LRScheduler.expGetLr (95 / 100) 1) 0 = 1 / (5 : ℚ) ∧
        LRScheduler.warmupGetLr 5 1 (LRScheduler.expGetLr (95 / 100) 1) (5 - 1) = 1) :=
  ⟨by decide, warmup_lr_semantics 5 1 (LRScheduler.expGetLr (95 / 100) 1) 7 (by decide)⟩

namespace ModelEnsemble

theorem list_sum_div (l : List ℚ) (c : ℚ) :
    (l.map (fun x => x / c)).sum = l.sum / c := by
  induction l with
  | nil => simp
  | cons a t ih => simp [ih, add_div]

/-- Any successful `add_model` weight update leaves a list summing to 1. -/
theorem addModelWeights_sum (st : Option (List ℚ)) (w : ℚ) (l : List ℚ)
    (h : addModelWeights st w = .ok l) : l.sum = 1 := by
  cases st with
  | none =>
    simp [addModelWeights] at h
    rw [← h]
    simp
  | some ws =>
    by_cases h0 : (ws ++ [w]).sum = 0
    · simp [addModelWeights, h0] at h
    · simp only [addModelWeights, if_neg h0] at h
      rcases h with h
      injection h with h
      rw [← h, list_sum_div, div_self h0]

/-- The stored weights after a successful run of `add_model` calls sum
to 1, provided the starting state already did (or was empty). -/
theorem runAddModels_sum (ws : List ℚ) :
    ∀ (st : Option (List ℚ)),
      (st = none ∨ ∃ l0, st = some l0 ∧ l0.sum = 1) →
      ∀ l : List ℚ, runAddModels st ws = .ok (some l) → l.sum = 1 := by
  induction ws with
  | nil =>
    intro st hst l h
    simp [runAddModels] at h
    rcases hst with hst | ⟨l0, hl0, hsum⟩
    · rw [hst] at h
      exact absurd h (by simp)
    · rw [hl0] at h
      have : l0 = l := by simpa using h
      rw [← this]
      exact hsum
  | cons w rest ih =>
    intro st hst l h
    rw [runAddModels] at h
    cases haw : addModelWeights st w with
    | error e => rw [haw] at h; exact absurd h (by simp)
    | ok l1 =>
      rw [haw] at h
      exact ih (some l1) (Or.inr ⟨l1, rfl, addModelWeights_sum st w l1 haw⟩) l h

end ModelEnsemble

/-- C8.  After any non-empty sequence of `add_model` calls in which every
renormalization succeeds (the running total is never zero, which Python
would answer with a `ZeroDivisionError`), the stored member weights sum
exactly to 1. -/
theorem ensemble_weights_sum_one (ws : List ℚ) (l : List ℚ)
    (h : ModelEnsemble.runAddModels none ws = .ok (some l)) : l.sum = 1 :=
  ModelEnsemble.runAddModels_sum ws none (Or.inl rfl) l h

/-- Witness for C8: adding models with requested weights `5, 3, 2` stores
`[1/12, 1/4, 2/3]`, which sums to 1 (the first weight is discarded). -/
theorem ensemble_weights_sum_one_witness :
    ModelEnsemble.runAddModels none [5, 3, 2] = .ok (some [1 / 12, 1 / 4, 2 / 3]) ∧
      ([1 / 12, 1 / 4, 2 / 3] : List ℚ).sum = 1 :=
  ⟨by norm_num [ModelEnsemble.runAddModels, ModelEnsemble.addModelWeights],
    ensemble_weights_sum_one [5, 3, 2] [1 / 12, 1 / 4, 2 / 3]
      (by norm_num [ModelEnsemble.runAddModels, ModelEnsemble.addModelWeights])⟩

/-- C10.  The first `add_model` call stores the weight list `[1.0]` no
matter which weight was requested, so the first member's requested weight
never influences the stored weights of this or any later call. -/
theorem ensemble_first_weight_ignored (w₁ w₂ : ℚ) (ws : List ℚ) :
    ModelEnsemble.runAddModels none [w₁] = .ok (some [1]) ∧
      ModelEnsemble.runAddModels none (w₁ :: ws) =
        ModelEnsemble.runAddModels none (w₂ :: ws) :=
  ⟨rfl, rfl⟩

namespace ModelCompressor

/-- Pruning a weight tensor keeps its element count. -/
theorem pruneWeights_length (amount : ℚ) (w : List ℚ) :
    (pruneWeights amount w).length = w.length := by
  unfold pruneWeights
  simp [List.length_zip, List.length_range]

/-- Pruning a layer keeps its parameter count. -/
theorem layerNumel_pruneLayer (amount : ℚ) (l : PruneLayer) :
    layerNumel (pruneLayer amount l) = layerNumel l := by
  unfold pruneLayer
  by_cases hp : l.prunable
  · simp [hp, layerNumel, pruneWeights_length]
  · simp [hp]

/-- Pruning a model keeps its total parameter count. -/
theorem modelParams_map_prune (amount : ℚ) (m : List PruneLayer) :
    modelParams (m.map (pruneLayer amount)) = modelParams m := by
  induction m with
  | nil => rfl
  | cons a t ih =>
    simp only [List.map_cons, modelParams, List.sum_cons] at ih ⊢
    rw [layerNumel_pruneLayer]
    omega

/-- Shows `_prune_model` on a model with at least one parameter always reports
`compression_ratio = original_params / pruned_params = 1`. -/
theorem pruneModel_ratio_one (m : List PruneLayer) (amount : ℚ)
    (h0 : 0 < modelParams m) :
    (pruneModel m amount).2.compressionRatio = some 1 := by
  have hp : modelParams (m.map (pruneLayer amount)) = modelParams m :=
    modelParams_map_prune amount m
  simp only [pruneModel, hp]
  rw [if_neg (by omega)]
  rw [div_self (by exact_mod_cast Nat.pos_iff_ne_zero.mp h0)]

/-- Shows `_prune_model` reports `pruned_params` equal to `original_params`. -/
theorem pruneModel_params_eq (m : List PruneLayer) (amount : ℚ) :
    (pruneModel m amount).2.prunedParams = (pruneModel m amount).2.originalParams := by
  simp only [pruneModel]
  exact modelParams_map_prune amount m

end ModelCompressor

/-- C9 counterexample.  Pruning a model of 10 prunable parameters with
`amount = 0.3` reports exactly the same `compression_ratio` as pruning it
with `amount = 0`, namely `original_params / pruned_params = 1`: the
reported ratio is a parameter-count ratio and does not reflect the
configured sparsity level. -/
theorem pruning_ratio_ignores_amount :
    (ModelCompressor.pruneModel [⟨true, [1, 2, 3, 4, 5, 6, 7, 8, 9, 10], []⟩]
        (3 / 10)).2.compressionRatio =
      (ModelCompressor.pruneModel [⟨true, [1, 2, 3, 4, 5, 6, 7, 8, 9, 10], []⟩]
        0).2.compressionRatio ∧
      (ModelCompressor.pruneModel [⟨true, [1, 2, 3, 4, 5, 6, 7, 8, 9, 10], []⟩]
        (3 / 10)).2.compressionRatio = some 1 ∧
      (ModelCompressor.pruneModel [⟨true, [1, 2, 3, 4, 5, 6, 7, 8, 9, 10], []⟩]
        (3 / 10)).2.prunedParams = 10 ∧
      (ModelCompressor.pruneModel [⟨true, [1, 2, 3, 4, 5, 6, 7, 8, 9, 10], []⟩]
        (3 / 10)).2.originalParams = 10 := by
  have h10 : ModelCompressor.modelParams [⟨true, [1, 2, 3, 4, 5, 6, 7, 8, 9, 10], []⟩] = 10 := by
    simp [ModelCompressor.modelParams, ModelCompressor.layerNumel]
  have hr1 := ModelCompressor.pruneModel_ratio_one
    [⟨true, [1, 2, 3, 4, 5, 6, 7, 8, 9, 10], []⟩] (3 / 10) (by omega)
  have hr2 := ModelCompressor.pruneModel_ratio_one
    [⟨true, [1, 2, 3, 4, 5, 6, 7, 8, 9, 10], []⟩] 0 (by omega)
  have hpe := ModelCompressor.pruneModel_params_eq
    [⟨true, [1, 2, 3, 4, 5, 6, 7, 8, 9, 10], []⟩] (3 / 10)
  have horig : (ModelCompressor.pruneModel [⟨true, [1, 2, 3, 4, 5, 6, 7, 8, 9, 10], []⟩]
      (3 / 10)).2.originalParams = 10 := by
    simp only [ModelCompressor.pruneModel]
    exact h10
  exact ⟨hr1.trans hr2.symm, hr1, hpe.trans horig, horig⟩

/-- C9 amended.  For every model and pruning amount, `_prune_model` reports
`pruned_params` equal to `original_params` (pruning zeroes weight values,
it does not remove parameters), and consequently its reported
`compression_ratio = original_params / pruned_params` is always 1 whenever
the model has parameters — it does not reflect the configured sparsity
level. -/
theorem pruning_reports_param_count_ratio (m : List ModelCompressor.PruneLayer)
    (amount : ℚ) :
    (ModelCompressor.pruneModel m amount).2.prunedParams =
        (ModelCompressor.pruneModel m amount).2.originalParams ∧
      (0 < ModelCompressor.modelParams m →
        (ModelCompressor.pruneModel m amount).2.compressionRatio = some 1) :=
  ⟨ModelCompressor.pruneModel_params_eq m amount,
    fun h0 => ModelCompressor.pruneModel_ratio_one m amount h0⟩

/-- Witness for C9 amended on a one-layer model with three weights,
`amount = 1/2`. -/
theorem pruning_reports_param_count_ratio_witness :
    0 < ModelCompressor.modelParams [⟨true, [4, 5, 6], [7]⟩] ∧
      ((ModelCompressor.pruneModel [⟨true, [4, 5, 6], [7]⟩] (1 / 2)).2.prunedParams =
          (ModelCompressor.pruneModel [⟨true, [4, 5, 6], [7]⟩] (1 / 2)).2.originalParams ∧
        (ModelCompressor.pruneModel [⟨true, [4, 5, 6], [7]⟩] (1 / 2)).2.compressionRatio =
          some 1) :=
  ⟨by simp [ModelCompressor.modelParams, ModelCompressor.layerNumel],
    ⟨(pruning_reports_param_count_ratio [⟨true, [4, 5, 6], [7]⟩] (1 / 2)).1,
      (pruning_reports_param_count_ratio [⟨true, [4, 5, 6], [7]⟩] (1 / 2)).2
        (by simp [ModelCompressor.modelParams, ModelCompressor.layerNumel])⟩⟩

/-- Witness for C4 amended: requesting a version that is absent from an
existing namespace raises `FileNotFoundError`. -/
theorem load_model_missing_raises_witness :
    ((some ["20240101_090000"] : Option (List String)) = none ∨
      ∃ ds v, (some ["20240101_090000"] : Option (List String)) = some ds ∧
        (some "20240202_090000" : Option String) = some v ∧ v ∉ ds) ∧
      ModelManager.loadModel (some ["20240101_090000"]) (some "20240202_090000") =
        .error (.fileNotFoundError "model not found") :=
  ⟨Or.inr ⟨["20240101_090000"], "20240202_090000", rfl, rfl, by decide⟩,
    load_model_missing_raises _ _
      (Or.inr ⟨["20240101_090000"], "20240202_090000", rfl, rfl, by decide⟩)⟩

/-- C3 counterexample.  Student training data missing `text` (resp. teacher
data missing `content`) makes preprocessing raise a `KeyError` naming the
missing key — not a `DataValidationError`, a class that exists nowhere in
the repository. -/
theorem preprocess_missing_field_no_validation_error :
    TrainManager.preprocessStudentData TrainManager.embedOk
        TrainManager.studentDataMissingText = .error (.keyError "text") ∧
      raisesDataValidation (TrainManager.preprocessStudentData TrainManager.embedOk
        TrainManager.studentDataMissingText) = false ∧
      TrainManager.preprocessTeacherData TrainManager.embedOk []
        TrainManager.teacherDataMissingContent = .error (.keyError "content") ∧
      raisesDataValidation (TrainManager.preprocessTeacherData TrainManager.embedOk []
        TrainManager.teacherDataMissingContent) = false :=
  ⟨rfl, rfl, rfl, rfl⟩

/-- C3 amended.  If the raw training data lacks one of the required
family-specific fields (student: the text/sequence/labels triplet with its
three label arrays; teacher: content with its three arrays, student_data,
labels with coverage and student_layers) and the embedding collaborator
itself does not fail, preprocessing raises a `KeyError` for the first
missing key in access order; preprocessing runs before the epoch loop, so
the call fails before any training epoch. -/
theorem preprocess_missing_field_raises_keyerror
    (embed : String → Except PyError (List ℚ)) (hembed : ∀ s, ∃ v, embed s = .ok v) :
    (∀ d : TrainManager.StudentRawData, TrainManager.studentMissingField d →
        raisesKeyError (TrainManager.preprocessStudentData embed d) = true) ∧
      ∀ (subjects : List String) (d : TrainManager.TeacherRawData),
        TrainManager.teacherMissingField d →
        raisesKeyError (TrainManager.preprocessTeacherData embed subjects d) = true := by
  constructor
  · rintro ⟨t, sq, labs⟩ hmiss
    cases t with
    | none => rfl
    | some tv =>
      rcases hembed tv with ⟨v, hv⟩
      cases sq with
      | none =>
        simp only [TrainManager.preprocessStudentData, TrainManager.dictGet,
          except_bind_ok, except_bind_error, except_map_error, hv, raisesKeyError]
      | some sqv =>
        cases labs with
        | none =>
          simp only [TrainManager.preprocessStudentData, TrainManager.dictGet,
          except_bind_ok, except_bind_error, except_map_error, hv, raisesKeyError]
        | some lv =>
          rcases lv with ⟨w, its, p⟩
          cases w with
          | none =>
            simp only [TrainManager.preprocessStudentData, TrainManager.dictGet,
          except_bind_ok, except_bind_error, except_map_error, hv, raisesKeyError]
          | some wv =>
            cases its with
            | none =>
              simp only [TrainManager.preprocessStudentData, TrainManager.dictGet,
          except_bind_ok, except_bind_error, except_map_error, hv, raisesKeyError]
            | some iv =>
              cases p with
              | none =>
                simp only [TrainManager.preprocessStudentData, TrainManager.dictGet,
          except_bind_ok, except_bind_error, except_map_error, hv, raisesKeyError]
              | some pv =>
                exact absurd hmiss (by simp [TrainManager.studentMissingField])
  · rintro subjects ⟨c, sd, labs⟩ hmiss
    cases c with
    | none => rfl
    | some cv =>
      rcases cv with ⟨plans, recs, fb⟩
      cases plans with
      | none => rfl
      | some plv =>
        cases recs with
        | none => rfl
        | some rv =>
          cases fb with
          | none => rfl
          | some fv =>
            rcases hembed (String.intercalate "\n" (plv ++ rv ++ fv)) with ⟨v, hv⟩
            cases sd with
            | none =>
              simp only [TrainManager.preprocessTeacherData, TrainManager.dictGet,
          except_bind_ok, except_bind_error, except_map_error, hv, raisesKeyError]
            | some sdv =>
              cases labs with
              | none =>
                simp only [TrainManager.preprocessTeacherData, TrainManager.dictGet,
          except_bind_ok, except_bind_error, except_map_error, hv, raisesKeyError]
              | some lv =>
                rcases lv with ⟨cov, layers⟩
                cases cov with
                | none =>
                  simp only [TrainManager.preprocessTeacherData, TrainManager.dictGet,
          except_bind_ok, except_bind_error, except_map_error, hv, raisesKeyError]
                | some covv =>
                  cases layers with
                  | none =>
                    simp only [TrainManager.preprocessTeacherData, TrainManager.dictGet,
          except_bind_ok, except_bind_error, except_map_error, hv, raisesKeyError]
                  | some lav =>
                    exact absurd hmiss (by simp [TrainManager.teacherMissingField])

/-- Witness for C3 amended: with an always-succeeding embedder, student
data missing `text` and teacher data missing `content` both fail with a
`KeyError`. -/
theorem preprocess_missing_field_raises_keyerror_witness :
    (∀ s, ∃ v, TrainManager.embedOk s = .ok v) ∧
      TrainManager.studentMissingField TrainManager.studentDataMissingText ∧
      raisesKeyError (TrainManager.preprocessStudentData TrainManager.embedOk
        TrainManager.studentDataMissingText) = true ∧
      TrainManager.teacherMissingField TrainManager.teacherDataMissingContent ∧
      raisesKeyError (TrainManager.preprocessTeacherData TrainManager.embedOk []
        TrainManager.teacherDataMissingContent) = true :=
  ⟨fun _ => ⟨[0], rfl⟩, Or.inl rfl,
    (preprocess_missing_field_raises_keyerror TrainManager.embedOk
      (fun _ => ⟨[0], rfl⟩)).1 TrainManager.studentDataMissingText (Or.inl rfl),
    Or.inl rfl,
    (preprocess_missing_field_raises_keyerror TrainManager.embedOk
      (fun _ => ⟨[0], rfl⟩)).2 [] TrainManager.teacherDataMissingContent (Or.inl rfl)⟩

/-- C2 (code bug).  When `train_student_model` hits an exception after the
job record was created — here evaluated both at data whose preprocessing
raises `KeyError: text` and at complete data, where the body still fails in
`_prepare_data_loader` — the `except` block itself raises
`NameError: progress` (the local is unbound, since the first assignment of
`progress` sits inside the never-reached epoch loop): the job record keeps
status `'training'` with no error message, and the `NameError`, not the
original exception, propagates to the caller.  `train_teacher_model`
behaves as claimed: the job is marked `'failed'` with the stringified
exception and the same exception is re-raised. -/
theorem training_failure_status_bug :
    (TrainManager.trainStudentModel TrainManager.embedOk
        TrainManager.studentDataMissingText).1.status = "training" ∧
      (TrainManager.trainStudentModel TrainManager.embedOk
        TrainManager.studentDataMissingText).1.error = none ∧
      (TrainManager.trainStudentModel TrainManager.embedOk
        TrainManager.studentDataMissingText).2 = .error (.nameError "progress") ∧
      (TrainManager.trainStudentModel TrainManager.embedOk
        TrainManager.studentDataFull).1.status = "training" ∧
      (TrainManager.trainStudentModel TrainManager.embedOk
        TrainManager.studentDataFull).2 = .error (.nameError "progress") ∧
      (TrainManager.trainTeacherModel TrainManager.embedOk []
        TrainManager.teacherDataMissingContent).1.status = "failed" ∧
      (TrainManager.trainTeacherModel TrainManager.embedOk []
        TrainManager.teacherDataMissingContent).1.error =
          some (pyErrStr (.keyError "content")) ∧
      (TrainManager.trainTeacherModel TrainManager.embedOk []
        TrainManager.teacherDataMissingContent).2 = .error (.keyError "content") :=
  ⟨rfl, rfl, rfl, rfl, rfl, rfl, rfl, rfl⟩

end EduInsight
